import Mathlib

/-!
Shallow embedding of the pending-request broker of the keystache repository.

The broker lives in two source files:
* `src/unnamed/part_001` (the module that registers handlers for both request
  kinds, runs the two decision-resolution loops and dispatches the outcome
  through `respondToSignEventRequest` / `respondToPayInvoiceRequest`), and
* `src/src/tauriCommands.ts` (a sign-event-only variant whose listener wraps the
  handler call in try/catch and breaks out of the loop on any boolean result).

Handlers are JavaScript functions; a handler invocation either returns a value
or throws.  We embed a handler sequence as the list of outcomes the handlers
would produce when called in registry order (`Object.values` order), and embed
each listener as a function from the request payload and that outcome list to
the list of dispatcher calls it performs.  Runtime values that flow through the
untyped `isApproved` variable are embedded as `JsVal` (undefined, a boolean, or
any other value, represented by a string).  The handler registries are embedded
as finite partial maps `Nat → Option α`, and the unbounded random-draw loop of
`getRandomInt` is embedded by passing the stream of draws explicitly as a list.
-/

namespace Keystache

/-- The outcome of invoking one JavaScript handler: it returns a value or it
throws (a rejected promise behaves like a throw under `await`). -/
inductive HandlerOutcome (α : Type) where
  | ok (v : α)
  | thrown
deriving DecidableEq

/-- A JavaScript runtime value as seen by the untyped `isApproved` variable:
`undefined`, a boolean, or any other (non-boolean, non-undefined) value,
represented here by a string. -/
inductive JsVal where
  | undef
  | bool (b : Bool)
  | str (s : String)
deriving DecidableEq

/-- JavaScript truthiness of a `JsVal`, as tested by `if (isApproved)`:
`undefined` is falsy, a boolean is itself, a string is truthy iff nonempty. -/
def JsVal.truthy : JsVal → Bool
  | .undef => false
  | .bool b => b
  | .str s => !s.isEmpty

/-- The test `typeof isApproved === "boolean"` from src/src/tauriCommands.ts. -/
def JsVal.isBoolean : JsVal → Bool
  | .bool _ => true
  | _ => false

/-- `PayInvoiceResponse = "paid" | "failed" | "rejected"`
(src/src/store/index.ts, line 40). -/
inductive PayInvoiceResponse where
  | paid
  | failed
  | rejected
deriving DecidableEq

/-- The loop body of the `sign_event_request` listener in src/unnamed/part_001
(lines 81-90).  `isApproved` starts as `false`; each iteration runs
`isApproved = await handler(event.payload)` — with no try/catch, so a throw
aborts the whole callback — and `if (isApproved) break;` tests truthiness.
Returns the final value of `isApproved` (or the propagated throw) paired with
the number of handlers invoked. -/
def signEventLoop : JsVal → List (HandlerOutcome JsVal) → HandlerOutcome JsVal × Nat
  | isApproved, [] => (.ok isApproved, 0)
  | _, .thrown :: _ => (.thrown, 1)
  | _, .ok v :: rest =>
    if v.truthy then (.ok v, 1)
    else
      let r := signEventLoop v rest
      (r.1, r.2 + 1)

/-- The `sign_event_request` listener of src/unnamed/part_001: the calls to
`respondToSignEventRequest(event.payload.id, isApproved)` it performs.  When a
handler throws, the async callback rejects before reaching the dispatcher, so
no call is made. -/
def signEventListen (eventId : String) (results : List (HandlerOutcome JsVal)) :
    List (String × JsVal) :=
  match (signEventLoop (JsVal.bool false) results).1 with
  | .ok v => [(eventId, v)]
  | .thrown => []

/-- Number of handlers the part_001 sign-event listener invokes. -/
def signEventInvoked (results : List (HandlerOutcome JsVal)) : Nat :=
  (signEventLoop (JsVal.bool false) results).2

/-- The loop body of the `pay_invoice_request` listener in src/unnamed/part_001
(lines 109-126).  `response` starts as `"rejected"`; a `"rejected"` handler
result is skipped, any other result is assigned to `response`, and `"paid"`
breaks.  There is no try/catch, so a throw aborts the callback.  Returns the
final `response` (or the propagated throw) paired with the number of handlers
invoked. -/
def payInvoiceLoop : PayInvoiceResponse → List (HandlerOutcome PayInvoiceResponse) →
    HandlerOutcome PayInvoiceResponse × Nat
  | response, [] => (.ok response, 0)
  | _, .thrown :: _ => (.thrown, 1)
  | response, .ok newResponse :: rest =>
    if newResponse = .rejected then
      let r := payInvoiceLoop response rest
      (r.1, r.2 + 1)
    else if newResponse = .paid then (.ok .paid, 1)
    else
      let r := payInvoiceLoop newResponse rest
      (r.1, r.2 + 1)

/-- The `pay_invoice_request` listener of src/unnamed/part_001: the calls to
`respondToPayInvoiceRequest(event.payload, response)` it performs. -/
def payInvoiceListen (invoice : String)
    (results : List (HandlerOutcome PayInvoiceResponse)) :
    List (String × PayInvoiceResponse) :=
  match (payInvoiceLoop PayInvoiceResponse.rejected results).1 with
  | .ok v => [(invoice, v)]
  | .thrown => []

/-- Number of handlers the part_001 pay-invoice listener invokes. -/
def payInvoiceInvoked (results : List (HandlerOutcome PayInvoiceResponse)) : Nat :=
  (payInvoiceLoop PayInvoiceResponse.rejected results).2

/-- The try/catch around `isApproved = await handler(event.payload)` in
src/src/tauriCommands.ts (lines 50-56): a returned value passes through and a
throw is replaced by `false`. -/
def catchValue : HandlerOutcome JsVal → JsVal
  | .thrown => .bool false
  | .ok v => v

/-- The loop body of the `sign_event_request` listener in
src/src/tauriCommands.ts (lines 47-61).  `isApproved` starts as `undefined`;
each iteration assigns the caught handler result and then breaks as soon as
`typeof isApproved === "boolean"`.  Returns the final value of `isApproved`
paired with the number of handlers invoked. -/
def signEventLoopTC : JsVal → List (HandlerOutcome JsVal) → JsVal × Nat
  | isApproved, [] => (isApproved, 0)
  | _, r :: rest =>
    let v := catchValue r
    if v.isBoolean then (v, 1)
    else
      let t := signEventLoopTC v rest
      (t.1, t.2 + 1)

/-- The `sign_event_request` listener of src/src/tauriCommands.ts: after the
loop, `if (isApproved === undefined) isApproved = false;` and then
`respondToSignEventRequest(event.payload.id, isApproved)` is always called,
exactly once. -/
def signEventListenTC (eventId : String) (results : List (HandlerOutcome JsVal)) :
    List (String × JsVal) :=
  let v := (signEventLoopTC JsVal.undef results).1
  let w := if v = JsVal.undef then JsVal.bool false else v
  [(eventId, w)]

/-- Number of handlers the tauriCommands.ts sign-event listener invokes. -/
def signEventInvokedTC (results : List (HandlerOutcome JsVal)) : Nat :=
  (signEventLoopTC JsVal.undef results).2

/-- The module state of src/unnamed/part_001: the two handler registries,
`signEventRequestHandlers` and `payInvoiceRequestHandlers`, embedded as finite
partial maps from the numeric handler id to the stored handler. -/
@[ext]
structure BrokerState (α β : Type) where
  signEventRequestHandlers : Nat → Option α
  payInvoiceRequestHandlers : Nat → Option β

/-- The id-generation loop shared by both registration functions:
`let handlerId = getRandomInt(1000000); while (registry[handlerId]) handlerId =
getRandomInt(1000000);`.  The successive outputs of `getRandomInt` are passed
as the list `draws`; the result is the first draw whose key is unoccupied
(`registry[handlerId]` is truthy exactly when the key is present), or `none`
if the given draws are exhausted. -/
def pickHandlerId {α : Type} (registry : Nat → Option α) : List Nat → Option Nat
  | [] => none
  | d :: draws => if (registry d).isSome then pickHandlerId registry draws else some d

/-- `handleSignEventRequests` (src/unnamed/part_001, lines 30-42): draw a fresh
handler id, insert the handler under it, and return the new state together with
the id the returned unregister closure captures. -/
def handleSignEventRequests {α β : Type} (s : BrokerState α β) (handler : α)
    (draws : List Nat) : Option (BrokerState α β × Nat) :=
  match pickHandlerId s.signEventRequestHandlers draws with
  | none => none
  | some handlerId =>
    some ({ s with signEventRequestHandlers :=
              fun k => if k = handlerId then some handler else s.signEventRequestHandlers k },
          handlerId)

/-- `handlePayInvoiceRequests` (src/unnamed/part_001, lines 55-67): the same
registration for the pay-invoice registry. -/
def handlePayInvoiceRequests {α β : Type} (s : BrokerState α β) (handler : β)
    (draws : List Nat) : Option (BrokerState α β × Nat) :=
  match pickHandlerId s.payInvoiceRequestHandlers draws with
  | none => none
  | some handlerId =>
    some ({ s with payInvoiceRequestHandlers :=
              fun k => if k = handlerId then some handler else s.payInvoiceRequestHandlers k },
          handlerId)

/-- The unregister closure returned by `handleSignEventRequests`:
`() => { delete signEventRequestHandlers[handlerId]; }` (part_001, lines 39-41),
keyed only by the captured numeric `handlerId`. -/
def unregisterSignEvent {α β : Type} (s : BrokerState α β) (handlerId : Nat) :
    BrokerState α β :=
  { s with signEventRequestHandlers :=
      fun k => if k = handlerId then none else s.signEventRequestHandlers k }

/-- The unregister closure returned by `handlePayInvoiceRequests`
(part_001, lines 64-66). -/
def unregisterPayInvoice {α β : Type} (s : BrokerState α β) (handlerId : Nat) :
    BrokerState α β :=
  { s with payInvoiceRequestHandlers :=
      fun k => if k = handlerId then none else s.payInvoiceRequestHandlers k }

/-- `getPublicKey` (part_001, lines 73-75): `return await invoke("get_public_key")`.
It forwards the backend result unchanged — a yielded value (even an empty
string) is returned as-is and only a backend rejection propagates. -/
def getPublicKey (backendResult : HandlerOutcome String) : HandlerOutcome String :=
  backendResult

/-- The `pubkey` state of `ProtectedRoute` (src/unnamed/part_002):
`useState<string | undefined | null>(undefined)`. -/
inductive PubkeyState where
  | undef
  | null
  | key (s : String)
deriving DecidableEq

/-- `ProtectedRoute.setPublicKey` (part_002, lines 15-26): a caught error sets
`pubkey` to `null`; a falsy response (`!response`, i.e. the empty string) sets
`null`; otherwise the key is stored. -/
def setPublicKey (result : HandlerOutcome String) : PubkeyState :=
  match result with
  | .thrown => .null
  | .ok response => if response.isEmpty then .null else .key response

/-- What `ProtectedRoute` renders. -/
inductive RouteView where
  | redirectToLogin
  | children
deriving DecidableEq

/-- The render logic of `ProtectedRoute` (part_002, lines 32-39): only
`pubkey === null` redirects to `/login`; `undefined` and a stored key render
the children. -/
def protectedRoute : PubkeyState → RouteView
  | .null => .redirectToLogin
  | _ => .children

/-! ### Helper lemmas -/

theorem signEventLoop_no_thrown (rs : List (HandlerOutcome JsVal)) :
    ∀ acc : JsVal, HandlerOutcome.thrown ∉ rs →
      (signEventLoop acc rs).1 ≠ HandlerOutcome.thrown := by
  induction rs with
  | nil => intro acc _ h; simp [signEventLoop] at h
  | cons r rest ih =>
    intro acc hmem
    cases r with
    | thrown => exact absurd (List.mem_cons_self _ _) hmem
    | ok v =>
      have hrest : HandlerOutcome.thrown ∉ rest := fun hm => hmem (List.mem_cons_of_mem _ hm)
      by_cases hv : v.truthy = true
      · simp [signEventLoop, hv]
      · simp only [signEventLoop, Bool.not_eq_true] at hv ⊢
        rw [hv]
        simpa using ih v hrest

theorem payInvoiceLoop_no_thrown (ps : List (HandlerOutcome PayInvoiceResponse)) :
    ∀ resp : PayInvoiceResponse, HandlerOutcome.thrown ∉ ps →
      (payInvoiceLoop resp ps).1 ≠ HandlerOutcome.thrown := by
  induction ps with
  | nil => intro resp _ h; simp [payInvoiceLoop] at h
  | cons p rest ih =>
    intro resp hmem
    cases p with
    | thrown => exact absurd (List.mem_cons_self _ _) hmem
    | ok v =>
      have hrest : HandlerOutcome.thrown ∉ rest := fun hm => hmem (List.mem_cons_of_mem _ hm)
      by_cases hrej : v = PayInvoiceResponse.rejected
      · simpa [payInvoiceLoop, hrej] using ih resp hrest
      · by_cases hpaid : v = PayInvoiceResponse.paid
        · simp [payInvoiceLoop, hrej, hpaid]
        · simpa [payInvoiceLoop, hrej, hpaid] using ih v hrest

theorem pickHandlerId_fresh {α : Type} (registry : Nat → Option α) :
    ∀ (draws : List Nat) (i : Nat), pickHandlerId registry draws = some i →
      registry i = none := by
  intro draws
  induction draws with
  | nil => intro i h; simp [pickHandlerId] at h
  | cons d rest ih =>
    intro i h
    by_cases hd : (registry d).isSome = true
    · rw [pickHandlerId, if_pos hd] at h
      exact ih i h
    · rw [pickHandlerId, if_neg hd] at h
      cases h
      exact Option.not_isSome_iff_eq_none.mp hd

/-! ### Claim theorems -/

/-- C1 counterexample: the claim asserts the dispatcher fires exactly once for
every handler sequence, including ones with a throwing handler; but in the
part_001 listeners a handler throw aborts the async callback before the
dispatcher, so for the sequence consisting of one throwing handler the
pay-invoice and sign-event dispatchers are invoked zero times. -/
theorem throwing_handler_dispatches_nothing :
    payInvoiceListen "lnbc1" [HandlerOutcome.thrown] = [] ∧
    signEventListen "evt123" [HandlerOutcome.thrown] = [] :=
  ⟨rfl, rfl⟩

/-- C1 (amended): for every handler sequence in which no handler throws, each
part_001 listener invokes its response dispatcher exactly once — never zero and
never more than once — and the tauriCommands.ts sign-event variant invokes it
exactly once for every handler sequence, throwing handlers included; a throw in
a part_001 listener aborts that request with no dispatch. -/
theorem dispatcher_exactly_once :
    (∀ (eventId : String) (rs : List (HandlerOutcome JsVal)),
       HandlerOutcome.thrown ∉ rs → (signEventListen eventId rs).length = 1) ∧
    (∀ (invoice : String) (ps : List (HandlerOutcome PayInvoiceResponse)),
       HandlerOutcome.thrown ∉ ps → (payInvoiceListen invoice ps).length = 1) ∧
    (∀ (eventId : String) (rs : List (HandlerOutcome JsVal)),
       (signEventListenTC eventId rs).length = 1) := by
  refine ⟨fun eventId rs h => ?_, fun invoice ps h => ?_, fun eventId rs => rfl⟩
  · unfold signEventListen
    cases hloop : (signEventLoop (JsVal.bool false) rs).1 with
    | ok v => rfl
    | thrown => exact absurd hloop (signEventLoop_no_thrown rs (JsVal.bool false) h)
  · unfold payInvoiceListen
    cases hloop : (payInvoiceLoop PayInvoiceResponse.rejected ps).1 with
    | ok v => rfl
    | thrown => exact absurd hloop (payInvoiceLoop_no_thrown ps PayInvoiceResponse.rejected h)

/-- C1 witness: the amended theorem applied to concrete throw-free sequences. -/
theorem dispatcher_exactly_once_instance :
    (signEventListen "evt123" [HandlerOutcome.ok (JsVal.bool true)]).length = 1 ∧
    (payInvoiceListen "lnbc1" [HandlerOutcome.ok PayInvoiceResponse.failed]).length = 1 ∧
    (signEventListenTC "evt123" [HandlerOutcome.thrown]).length = 1 :=
  ⟨dispatcher_exactly_once.1 "evt123" [HandlerOutcome.ok (JsVal.bool true)] (by decide),
   dispatcher_exactly_once.2.1 "lnbc1" [HandlerOutcome.ok PayInvoiceResponse.failed] (by decide),
   dispatcher_exactly_once.2.2 "evt123" [HandlerOutcome.thrown]⟩

theorem signEventLoop_all_false (bs : List Bool) (h : ∀ b ∈ bs, b = false) :
    signEventLoop (JsVal.bool false)
        (bs.map fun b => HandlerOutcome.ok (JsVal.bool b)) =
      (HandlerOutcome.ok (JsVal.bool false), bs.length) := by
  induction bs with
  | nil => rfl
  | cons b rest ih =>
    have hb : b = false := h b (List.mem_cons_self _ _)
    have hrest : ∀ x ∈ rest, x = false := fun x hx => h x (List.mem_cons_of_mem _ hx)
    subst hb
    rw [List.map_cons]
    simp only [signEventLoop, JsVal.truthy]
    rw [if_neg (by decide), ih hrest]
    rfl

theorem signEventLoop_first_true (pre post : List Bool) (h : ∀ b ∈ pre, b = false) :
    signEventLoop (JsVal.bool false)
        ((pre ++ true :: post).map fun b => HandlerOutcome.ok (JsVal.bool b)) =
      (HandlerOutcome.ok (JsVal.bool true), pre.length + 1) := by
  induction pre with
  | nil => simp [signEventLoop, JsVal.truthy]
  | cons b rest ih =>
    have hb : b = false := h b (List.mem_cons_self _ _)
    have hrest : ∀ x ∈ rest, x = false := fun x hx => h x (List.mem_cons_of_mem _ hx)
    subst hb
    rw [List.cons_append, List.map_cons]
    simp only [signEventLoop, JsVal.truthy]
    rw [if_neg (by decide), ih hrest]
    rfl

/-- C2: sign-event resolution in the part_001 listener is a short-circuiting
logical OR over the handler sequence in registry order: if every handler before
the first true-returning one returns false, the listener dispatches true and
invokes exactly the handlers up to and including that first true, so no handler
after the first true is ever invoked; if every handler returns false (or there
are none), every handler is invoked and the listener dispatches false. -/
theorem signEvent_resolution_is_or :
    (∀ (eventId : String) (pre post : List Bool), (∀ b ∈ pre, b = false) →
       signEventListen eventId
           ((pre ++ true :: post).map fun b => HandlerOutcome.ok (JsVal.bool b)) =
         [(eventId, JsVal.bool true)] ∧
       signEventInvoked
           ((pre ++ true :: post).map fun b => HandlerOutcome.ok (JsVal.bool b)) =
         pre.length + 1) ∧
    (∀ (eventId : String) (bs : List Bool), (∀ b ∈ bs, b = false) →
       signEventListen eventId (bs.map fun b => HandlerOutcome.ok (JsVal.bool b)) =
         [(eventId, JsVal.bool false)] ∧
       signEventInvoked (bs.map fun b => HandlerOutcome.ok (JsVal.bool b)) =
         bs.length) := by
  constructor
  · intro eventId pre post h
    constructor
    · unfold signEventListen
      rw [signEventLoop_first_true pre post h]
    · unfold signEventInvoked
      rw [signEventLoop_first_true pre post h]
  · intro eventId bs h
    constructor
    · unfold signEventListen
      rw [signEventLoop_all_false bs h]
    · unfold signEventInvoked
      rw [signEventLoop_all_false bs h]

/-- C2 witness: the OR theorem applied to the sequences [false, true, true]
(dispatching true after two invocations) and [false, false] (dispatching false
after two invocations). -/
theorem signEvent_resolution_is_or_instance :
    (signEventListen "evt123"
         ([false, true, true].map fun b => HandlerOutcome.ok (JsVal.bool b)) =
       [("evt123", JsVal.bool true)] ∧
     signEventInvoked
         ([false, true, true].map fun b => HandlerOutcome.ok (JsVal.bool b)) = 2) ∧
    (signEventListen "evt123"
         ([false, false].map fun b => HandlerOutcome.ok (JsVal.bool b)) =
       [("evt123", JsVal.bool false)] ∧
     signEventInvoked
         ([false, false].map fun b => HandlerOutcome.ok (JsVal.bool b)) = 2) :=
  ⟨signEvent_resolution_is_or.1 "evt123" [false] [true] (by decide),
   signEvent_resolution_is_or.2 "evt123" [false, false] (by decide)⟩

/-- C4 counterexample: with sign-event handlers in registry order [B, A] where
B throws and A returns true, the claim says the dispatched outcome is true; but
the part_001 listener dispatches nothing (the throw aborts the callback) and
the tauriCommands.ts variant dispatches false after invoking only B (the caught
throw becomes the boolean false, which stops iteration), so A is never invoked
and true is never dispatched. -/
theorem throw_then_true_dispatches_no_true :
    signEventListen "evt123" [HandlerOutcome.thrown, HandlerOutcome.ok (JsVal.bool true)] = [] ∧
    signEventListenTC "evt123" [HandlerOutcome.thrown, HandlerOutcome.ok (JsVal.bool true)] =
      [("evt123", JsVal.bool false)] ∧
    signEventInvokedTC [HandlerOutcome.thrown, HandlerOutcome.ok (JsVal.bool true)] = 1 :=
  ⟨rfl, rfl, rfl⟩

/-- C4 (amended): a throwing handler never lets resolution proceed to the next
handler.  In the part_001 listeners (both kinds) the throw aborts the callback:
nothing is dispatched and no later handler is invoked.  In the
tauriCommands.ts sign-event variant the catch replaces the throw by the boolean
false, which immediately stops iteration and is dispatched as the outcome. -/
theorem handler_throw_stops_resolution (eventId invoice : String)
    (rest : List (HandlerOutcome JsVal))
    (prest : List (HandlerOutcome PayInvoiceResponse)) :
    signEventListen eventId (HandlerOutcome.thrown :: rest) = [] ∧
    signEventInvoked (HandlerOutcome.thrown :: rest) = 1 ∧
    payInvoiceListen invoice (HandlerOutcome.thrown :: prest) = [] ∧
    payInvoiceInvoked (HandlerOutcome.thrown :: prest) = 1 ∧
    signEventListenTC eventId (HandlerOutcome.thrown :: rest) =
      [(eventId, JsVal.bool false)] ∧
    signEventInvokedTC (HandlerOutcome.thrown :: rest) = 1 :=
  ⟨rfl, rfl, rfl, rfl, rfl, rfl⟩

theorem payInvoiceLoop_no_paid (vs : List PayInvoiceResponse) :
    ∀ resp : PayInvoiceResponse, PayInvoiceResponse.paid ∉ vs →
      payInvoiceLoop resp (vs.map HandlerOutcome.ok) =
        (HandlerOutcome.ok
           (if PayInvoiceResponse.failed ∈ vs then PayInvoiceResponse.failed else resp),
         vs.length) := by
  induction vs with
  | nil => intro resp _; simp [payInvoiceLoop]
  | cons v rest ih =>
    intro resp h
    have hrest : PayInvoiceResponse.paid ∉ rest := fun hm => h (List.mem_cons_of_mem _ hm)
    cases v with
    | paid => exact absurd (List.mem_cons_self _ _) h
    | failed =>
      rw [List.map_cons]
      simp only [payInvoiceLoop]
      rw [if_neg (by decide), if_neg (by decide), ih PayInvoiceResponse.failed hrest]
      simp [List.mem_cons]
    | rejected =>
      rw [List.map_cons]
      simp only [payInvoiceLoop]
      rw [if_pos trivial, ih resp hrest]
      simp [List.mem_cons]

theorem payInvoiceLoop_first_paid (pre post : List PayInvoiceResponse) :
    ∀ resp : PayInvoiceResponse, PayInvoiceResponse.paid ∉ pre →
      payInvoiceLoop resp
          ((pre ++ PayInvoiceResponse.paid :: post).map HandlerOutcome.ok) =
        (HandlerOutcome.ok PayInvoiceResponse.paid, pre.length + 1) := by
  induction pre with
  | nil => intro resp _; simp [payInvoiceLoop]
  | cons v rest ih =>
    intro resp h
    have hrest : PayInvoiceResponse.paid ∉ rest := fun hm => h (List.mem_cons_of_mem _ hm)
    cases v with
    | paid => exact absurd (List.mem_cons_self _ _) h
    | failed =>
      rw [List.cons_append, List.map_cons]
      simp only [payInvoiceLoop]
      rw [if_neg (by decide), if_neg (by decide), ih PayInvoiceResponse.failed hrest]
      rfl
    | rejected =>
      rw [List.cons_append, List.map_cons]
      simp only [payInvoiceLoop]
      rw [if_pos trivial, ih resp hrest]
      rfl

/-- C3: pay-invoice resolution in the part_001 listener realises the precedence
paid over failed over rejected with default rejected: if every handler before
the first paid-returning one returns rejected or failed, the listener
dispatches paid and invokes exactly the handlers up to and including that first
paid, so no later handler is invoked; with no paid but at least one failed, all
handlers are invoked and the listener dispatches failed; with only rejected
results (or no handlers), all handlers are invoked and the listener dispatches
rejected. -/
theorem payInvoice_resolution_precedence :
    (∀ (invoice : String) (pre post : List PayInvoiceResponse),
       PayInvoiceResponse.paid ∉ pre →
       payInvoiceListen invoice
           ((pre ++ PayInvoiceResponse.paid :: post).map HandlerOutcome.ok) =
         [(invoice, PayInvoiceResponse.paid)] ∧
       payInvoiceInvoked
           ((pre ++ PayInvoiceResponse.paid :: post).map HandlerOutcome.ok) =
         pre.length + 1) ∧
    (∀ (invoice : String) (vs : List PayInvoiceResponse),
       PayInvoiceResponse.paid ∉ vs → PayInvoiceResponse.failed ∈ vs →
       payInvoiceListen invoice (vs.map HandlerOutcome.ok) =
         [(invoice, PayInvoiceResponse.failed)] ∧
       payInvoiceInvoked (vs.map HandlerOutcome.ok) = vs.length) ∧
    (∀ (invoice : String) (vs : List PayInvoiceResponse),
       (∀ v ∈ vs, v = PayInvoiceResponse.rejected) →
       payInvoiceListen invoice (vs.map HandlerOutcome.ok) =
         [(invoice, PayInvoiceResponse.rejected)] ∧
       payInvoiceInvoked (vs.map HandlerOutcome.ok) = vs.length) := by
  refine ⟨fun invoice pre post h => ?_, fun invoice vs hnp hf => ?_,
    fun invoice vs h => ?_⟩
  · constructor
    · unfold payInvoiceListen
      rw [payInvoiceLoop_first_paid pre post PayInvoiceResponse.rejected h]
    · unfold payInvoiceInvoked
      rw [payInvoiceLoop_first_paid pre post PayInvoiceResponse.rejected h]
  · constructor
    · unfold payInvoiceListen
      rw [payInvoiceLoop_no_paid vs PayInvoiceResponse.rejected hnp, if_pos hf]
    · unfold payInvoiceInvoked
      rw [payInvoiceLoop_no_paid vs PayInvoiceResponse.rejected hnp]
  · have hnp : PayInvoiceResponse.paid ∉ vs := fun hm => by
      have := h _ hm
      exact absurd this (by decide)
    have hnf : PayInvoiceResponse.failed ∉ vs := fun hm => by
      have := h _ hm
      exact absurd this (by decide)
    constructor
    · unfold payInvoiceListen
      rw [payInvoiceLoop_no_paid vs PayInvoiceResponse.rejected hnp, if_neg hnf]
    · unfold payInvoiceInvoked
      rw [payInvoiceLoop_no_paid vs PayInvoiceResponse.rejected hnp]

/-- C3 witness: the precedence theorem applied to the sequences
[rejected, failed, paid, failed] (paid after three invocations),
[rejected, failed, rejected] (failed), and [rejected, rejected] (rejected). -/
theorem payInvoice_resolution_precedence_instance :
    (payInvoiceListen "lnbc1"
         ([PayInvoiceResponse.rejected, PayInvoiceResponse.failed, PayInvoiceResponse.paid,
           PayInvoiceResponse.failed].map HandlerOutcome.ok) =
       [("lnbc1", PayInvoiceResponse.paid)] ∧
     payInvoiceInvoked
         ([PayInvoiceResponse.rejected, PayInvoiceResponse.failed, PayInvoiceResponse.paid,
           PayInvoiceResponse.failed].map HandlerOutcome.ok) = 3) ∧
    payInvoiceListen "lnbc1"
        ([PayInvoiceResponse.rejected, PayInvoiceResponse.failed,
          PayInvoiceResponse.rejected].map HandlerOutcome.ok) =
      [("lnbc1", PayInvoiceResponse.failed)] ∧
    payInvoiceListen "lnbc1"
        ([PayInvoiceResponse.rejected, PayInvoiceResponse.rejected].map HandlerOutcome.ok) =
      [("lnbc1", PayInvoiceResponse.rejected)] :=
  ⟨payInvoice_resolution_precedence.1 "lnbc1"
      [PayInvoiceResponse.rejected, PayInvoiceResponse.failed] [PayInvoiceResponse.failed]
      (by decide),
   (payInvoice_resolution_precedence.2.1 "lnbc1"
      [PayInvoiceResponse.rejected, PayInvoiceResponse.failed, PayInvoiceResponse.rejected]
      (by decide) (by decide)).1,
   (payInvoice_resolution_precedence.2.2 "lnbc1"
      [PayInvoiceResponse.rejected, PayInvoiceResponse.rejected] (by decide)).1⟩

/-- C5: with zero handlers registered, resolution still completes and the
kind-specific default-deny outcome is dispatched exactly once: the sign-event
listeners dispatch `respondToSignEventRequest(eventId, false)` and the
pay-invoice listener dispatches outcome rejected. -/
theorem zero_handlers_default_deny (eventId invoice : String) :
    signEventListen eventId [] = [(eventId, JsVal.bool false)] ∧
    payInvoiceListen invoice [] = [(invoice, PayInvoiceResponse.rejected)] ∧
    signEventListenTC eventId [] = [(eventId, JsVal.bool false)] :=
  ⟨rfl, rfl, rfl⟩

theorem signEventLoopTC_no_boolean (rs : List (HandlerOutcome JsVal)) :
    ∀ acc : JsVal, (∀ r ∈ rs, (catchValue r).isBoolean = false) →
      signEventLoopTC acc rs = ((rs.map catchValue).getLastD acc, rs.length) := by
  induction rs with
  | nil => intro acc _; simp [signEventLoopTC]
  | cons r rest ih =>
    intro acc h
    have hr : (catchValue r).isBoolean = false := h r (List.mem_cons_self _ _)
    have hrest : ∀ x ∈ rest, (catchValue x).isBoolean = false :=
      fun x hx => h x (List.mem_cons_of_mem _ hx)
    simp only [signEventLoopTC]
    rw [if_neg (by simp [hr]), ih (catchValue r) hrest, List.map_cons,
      List.getLastD_cons]
    rfl

theorem signEventLoopTC_first_boolean (pre : List (HandlerOutcome JsVal)) :
    ∀ (acc : JsVal) (r : HandlerOutcome JsVal) (post : List (HandlerOutcome JsVal)),
      (∀ x ∈ pre, (catchValue x).isBoolean = false) →
      (catchValue r).isBoolean = true →
      signEventLoopTC acc (pre ++ r :: post) = (catchValue r, pre.length + 1) := by
  induction pre with
  | nil =>
    intro acc r post _ hr
    rw [List.nil_append]
    simp only [signEventLoopTC]
    rw [if_pos hr]
    rfl
  | cons x rest ih =>
    intro acc r post hpre hr
    have hx : (catchValue x).isBoolean = false := hpre x (List.mem_cons_self _ _)
    have hrest : ∀ y ∈ rest, (catchValue y).isBoolean = false :=
      fun y hy => hpre y (List.mem_cons_of_mem _ hy)
    rw [List.cons_append]
    simp only [signEventLoopTC]
    rw [if_neg (by simp [hx]), ih (catchValue x) r post hrest hr]
    rfl

theorem catchValue_boolean_ne_undef (r : HandlerOutcome JsVal)
    (hr : (catchValue r).isBoolean = true) : catchValue r ≠ JsVal.undef := by
  intro he
  rw [he] at hr
  simp [JsVal.isBoolean] at hr

/-- C9 counterexample: the claim says that when no handler yields a boolean the
dispatched outcome is false; but for the single handler returning the
non-boolean string value x, the tauriCommands.ts listener dispatches that
string, not false — the final default only replaces undefined. -/
theorem non_boolean_result_dispatched_veridical :
    signEventListenTC "evt123" [HandlerOutcome.ok (JsVal.str "x")] =
      [("evt123", JsVal.str "x")] ∧
    JsVal.str "x" ≠ JsVal.bool false :=
  ⟨rfl, by decide⟩

/-- C9 (amended): in the tauriCommands.ts sign-event variant, iteration stops
at the first handler whose caught result is a boolean — including false — and
that result is dispatched, so later handlers are never invoked; handlers whose
caught result is non-boolean are skipped; when no handler yields a boolean,
every handler is invoked and the dispatched outcome is the last handler's
value, except that an undefined final value (in particular, an empty handler
sequence) is replaced by false. -/
theorem signEventTC_first_boolean_dispatch :
    (∀ (eventId : String) (pre post : List (HandlerOutcome JsVal))
       (r : HandlerOutcome JsVal),
       (∀ x ∈ pre, (catchValue x).isBoolean = false) →
       (catchValue r).isBoolean = true →
       signEventListenTC eventId (pre ++ r :: post) = [(eventId, catchValue r)] ∧
       signEventInvokedTC (pre ++ r :: post) = pre.length + 1) ∧
    (∀ (eventId : String) (rs : List (HandlerOutcome JsVal)),
       (∀ x ∈ rs, (catchValue x).isBoolean = false) →
       signEventListenTC eventId rs =
         [(eventId,
           if (rs.map catchValue).getLastD JsVal.undef = JsVal.undef then JsVal.bool false
           else (rs.map catchValue).getLastD JsVal.undef)] ∧
       signEventInvokedTC rs = rs.length) := by
  constructor
  · intro eventId pre post r hpre hr
    constructor
    · unfold signEventListenTC
      rw [signEventLoopTC_first_boolean pre JsVal.undef r post hpre hr]
      simp [if_neg (catchValue_boolean_ne_undef r hr)]
    · unfold signEventInvokedTC
      rw [signEventLoopTC_first_boolean pre JsVal.undef r post hpre hr]
  · intro eventId rs h
    constructor
    · unfold signEventListenTC
      rw [signEventLoopTC_no_boolean rs JsVal.undef h]
    · unfold signEventInvokedTC
      rw [signEventLoopTC_no_boolean rs JsVal.undef h]

/-- C9 witness: the amended theorem applied to the sequence
[undefined, false, true] — the undefined result is skipped, the boolean false
stops iteration after two invocations and is dispatched — and to the
no-boolean sequence [the string x], whose last value is dispatched. -/
theorem signEventTC_first_boolean_dispatch_instance :
    (signEventListenTC "evt123"
         [HandlerOutcome.ok JsVal.undef, HandlerOutcome.ok (JsVal.bool false),
          HandlerOutcome.ok (JsVal.bool true)] = [("evt123", JsVal.bool false)] ∧
     signEventInvokedTC
         [HandlerOutcome.ok JsVal.undef, HandlerOutcome.ok (JsVal.bool false),
          HandlerOutcome.ok (JsVal.bool true)] = 2) ∧
    signEventListenTC "evt123" [HandlerOutcome.ok (JsVal.str "x")] =
      [("evt123", JsVal.str "x")] :=
  ⟨signEventTC_first_boolean_dispatch.1 "evt123" [HandlerOutcome.ok JsVal.undef]
      [HandlerOutcome.ok (JsVal.bool true)] (HandlerOutcome.ok (JsVal.bool false))
      (by decide) (by decide),
   (signEventTC_first_boolean_dispatch.2 "evt123" [HandlerOutcome.ok (JsVal.str "x")]
      (by decide)).1⟩

/-- C8: when the backend yields an absent (empty) public key, `getPublicKey`
passes it to its caller as the empty result without raising, and the calling
`ProtectedRoute` maps it to the null pubkey state, which renders a redirect to
the login page. -/
theorem empty_pubkey_redirects_to_login :
    getPublicKey (HandlerOutcome.ok "") = HandlerOutcome.ok "" ∧
    setPublicKey (getPublicKey (HandlerOutcome.ok "")) = PubkeyState.null ∧
    protectedRoute (setPublicKey (getPublicKey (HandlerOutcome.ok ""))) =
      RouteView.redirectToLogin :=
  ⟨rfl, rfl, rfl⟩

/-- C6: registration preserves handle uniqueness: whenever a registration
completes, the handle it picked was absent from its registry at insertion time
(the random-draw loop skips occupied handles rather than overwriting), the new
handler is stored under that handle, every other entry of that registry is
unchanged, and the other kind's registry is untouched. -/
theorem registration_inserts_fresh_handle {α β : Type} :
    (∀ (s : BrokerState α β) (handler : α) (draws : List Nat)
       (s2 : BrokerState α β) (handlerId : Nat),
       handleSignEventRequests s handler draws = some (s2, handlerId) →
       s.signEventRequestHandlers handlerId = none ∧
       s2.signEventRequestHandlers handlerId = some handler ∧
       (∀ k, k ≠ handlerId →
          s2.signEventRequestHandlers k = s.signEventRequestHandlers k) ∧
       s2.payInvoiceRequestHandlers = s.payInvoiceRequestHandlers) ∧
    (∀ (s : BrokerState α β) (handler : β) (draws : List Nat)
       (s2 : BrokerState α β) (handlerId : Nat),
       handlePayInvoiceRequests s handler draws = some (s2, handlerId) →
       s.payInvoiceRequestHandlers handlerId = none ∧
       s2.payInvoiceRequestHandlers handlerId = some handler ∧
       (∀ k, k ≠ handlerId →
          s2.payInvoiceRequestHandlers k = s.payInvoiceRequestHandlers k) ∧
       s2.signEventRequestHandlers = s.signEventRequestHandlers) := by
  constructor
  · intro s handler draws s2 handlerId h
    unfold handleSignEventRequests at h
    cases hpick : pickHandlerId s.signEventRequestHandlers draws with
    | none => rw [hpick] at h; exact absurd h (by simp)
    | some i =>
      rw [hpick] at h
      simp only [Option.some.injEq, Prod.mk.injEq] at h
      obtain ⟨hs2, hid⟩ := h
      subst hid
      subst hs2
      refine ⟨pickHandlerId_fresh s.signEventRequestHandlers draws _ hpick,
        ?_, ?_, rfl⟩
      · simp
      · intro k hk
        simp [hk]
  · intro s handler draws s2 handlerId h
    unfold handlePayInvoiceRequests at h
    cases hpick : pickHandlerId s.payInvoiceRequestHandlers draws with
    | none => rw [hpick] at h; exact absurd h (by simp)
    | some i =>
      rw [hpick] at h
      simp only [Option.some.injEq, Prod.mk.injEq] at h
      obtain ⟨hs2, hid⟩ := h
      subst hid
      subst hs2
      refine ⟨pickHandlerId_fresh s.payInvoiceRequestHandlers draws _ hpick,
        ?_, ?_, rfl⟩
      · simp
      · intro k hk
        simp [hk]

/-- C6 witness: registering into an empty broker state with the single draw 5
picks the fresh handle 5, which was absent beforehand. -/
theorem registration_inserts_fresh_handle_instance :
    (fun _ => none : Nat → Option Unit) 5 = none ∧
    (⟨fun k => if k = 5 then some () else none, fun _ => none⟩ :
        BrokerState Unit Unit).signEventRequestHandlers 5 = some () :=
  ⟨(registration_inserts_fresh_handle.1
      (⟨fun _ => none, fun _ => none⟩ : BrokerState Unit Unit) () [5]
      (⟨fun k => if k = 5 then some () else none, fun _ => none⟩ : BrokerState Unit Unit)
      5 rfl).1,
   (registration_inserts_fresh_handle.1
      (⟨fun _ => none, fun _ => none⟩ : BrokerState Unit Unit) () [5]
      (⟨fun k => if k = 5 then some () else none, fun _ => none⟩ : BrokerState Unit Unit)
      5 rfl).2.1⟩

/-- C7: invoking the unregister closure removes exactly its own entry: the
captured handle is gone, every other entry of the same registry and the whole
registry of the other kind are unchanged, invoking the closure a second time in
succession changes nothing, and unregistering a handle that is absent from the
registry is a no-op; symmetrically for both kinds. -/
theorem unregister_removes_exactly_one {α β : Type} (s : BrokerState α β)
    (handlerId : Nat) :
    ((unregisterSignEvent s handlerId).signEventRequestHandlers handlerId = none ∧
     (∀ k, k ≠ handlerId →
        (unregisterSignEvent s handlerId).signEventRequestHandlers k =
          s.signEventRequestHandlers k) ∧
     (unregisterSignEvent s handlerId).payInvoiceRequestHandlers =
       s.payInvoiceRequestHandlers ∧
     unregisterSignEvent (unregisterSignEvent s handlerId) handlerId =
       unregisterSignEvent s handlerId ∧
     (s.signEventRequestHandlers handlerId = none →
        unregisterSignEvent s handlerId = s)) ∧
    ((unregisterPayInvoice s handlerId).payInvoiceRequestHandlers handlerId = none ∧
     (∀ k, k ≠ handlerId →
        (unregisterPayInvoice s handlerId).payInvoiceRequestHandlers k =
          s.payInvoiceRequestHandlers k) ∧
     (unregisterPayInvoice s handlerId).signEventRequestHandlers =
       s.signEventRequestHandlers ∧
     unregisterPayInvoice (unregisterPayInvoice s handlerId) handlerId =
       unregisterPayInvoice s handlerId ∧
     (s.payInvoiceRequestHandlers handlerId = none →
        unregisterPayInvoice s handlerId = s)) := by
  constructor
  · refine ⟨by simp [unregisterSignEvent], fun k hk => by simp [unregisterSignEvent, hk],
      rfl, ?_, ?_⟩
    · apply BrokerState.ext
      · funext k
        by_cases hk : k = handlerId <;> simp [unregisterSignEvent, hk]
      · rfl
    · intro h0
      apply BrokerState.ext
      · funext k
        by_cases hk : k = handlerId
        · subst hk
          simp [unregisterSignEvent, h0]
        · simp [unregisterSignEvent, hk]
      · rfl
  · refine ⟨by simp [unregisterPayInvoice], fun k hk => by simp [unregisterPayInvoice, hk],
      rfl, ?_, ?_⟩
    · apply BrokerState.ext
      · rfl
      · funext k
        by_cases hk : k = handlerId <;> simp [unregisterPayInvoice, hk]
    · intro h0
      apply BrokerState.ext
      · rfl
      · funext k
        by_cases hk : k = handlerId
        · subst hk
          simp [unregisterPayInvoice, h0]
        · simp [unregisterPayInvoice, hk]

/-- C7 witness: on the empty broker state, unregistering handle 1 leaves
handle 2 untouched and, since handle 1 is absent, is a no-op. -/
theorem unregister_removes_exactly_one_instance :
    (unregisterSignEvent (⟨fun _ => none, fun _ => none⟩ : BrokerState Unit Unit)
        1).signEventRequestHandlers 2 =
      (⟨fun _ => none, fun _ => none⟩ :
        BrokerState Unit Unit).signEventRequestHandlers 2 ∧
    unregisterSignEvent (⟨fun _ => none, fun _ => none⟩ : BrokerState Unit Unit) 1 =
      (⟨fun _ => none, fun _ => none⟩ : BrokerState Unit Unit) ∧
    unregisterPayInvoice (⟨fun _ => none, fun _ => none⟩ : BrokerState Unit Unit) 1 =
      (⟨fun _ => none, fun _ => none⟩ : BrokerState Unit Unit) :=
  ⟨((unregister_removes_exactly_one
      (⟨fun _ => none, fun _ => none⟩ : BrokerState Unit Unit) 1).1).2.1 2 (by decide),
   ((unregister_removes_exactly_one
      (⟨fun _ => none, fun _ => none⟩ : BrokerState Unit Unit) 1).1).2.2.2.2 rfl,
   ((unregister_removes_exactly_one
      (⟨fun _ => none, fun _ => none⟩ : BrokerState Unit Unit) 1).2).2.2.2.2 rfl⟩

/-- C10: unregistration is keyed only by the captured numeric handle, not by
handler identity: if, after the closure's handle was deleted, a later
registration in the same registry draws the same handle for a new handler,
invoking the closure again deletes the newer handler's entry — so the second
invocation is not a no-op once the handle has been reassigned. -/
theorem unregister_keyed_by_handle_only {α β : Type} (s : BrokerState α β)
    (handlerId : Nat) (newHandler : α) (draws : List Nat) (s2 : BrokerState α β)
    (h : handleSignEventRequests (unregisterSignEvent s handlerId) newHandler draws =
           some (s2, handlerId)) :
    s2.signEventRequestHandlers handlerId = some newHandler ∧
    (unregisterSignEvent s2 handlerId).signEventRequestHandlers handlerId = none ∧
    unregisterSignEvent s2 handlerId ≠ s2 := by
  unfold handleSignEventRequests at h
  cases hpick : pickHandlerId
      (unregisterSignEvent s handlerId).signEventRequestHandlers draws with
  | none => rw [hpick] at h; exact absurd h (by simp)
  | some i =>
    rw [hpick] at h
    simp only [Option.some.injEq, Prod.mk.injEq] at h
    obtain ⟨hs2, hid⟩ := h
    subst hid
    subst hs2
    refine ⟨by simp, by simp [unregisterSignEvent], fun heq => ?_⟩
    have h1 := congrArg (fun st : BrokerState α β => st.signEventRequestHandlers i) heq
    simp [unregisterSignEvent] at h1

/-- C10 witness: on the empty broker state, delete handle 5, register a new
handler that draws the same handle 5; the registry then holds the new handler
at 5, and invoking the original unregister closure again removes it. -/
theorem unregister_keyed_by_handle_only_instance :
    (⟨fun k => if k = 5 then some 1 else if k = 5 then none else none,
        fun _ => none⟩ : BrokerState Nat Unit).signEventRequestHandlers 5 = some 1 ∧
    (unregisterSignEvent
        (⟨fun k => if k = 5 then some 1 else if k = 5 then none else none,
            fun _ => none⟩ : BrokerState Nat Unit) 5).signEventRequestHandlers 5 =
      none :=
  ⟨(unregister_keyed_by_handle_only
      (⟨fun _ => none, fun _ => none⟩ : BrokerState Nat Unit) 5 1 [5] _ rfl).1,
   (unregister_keyed_by_handle_only
      (⟨fun _ => none, fun _ => none⟩ : BrokerState Nat Unit) 5 1 [5] _ rfl).2.1⟩

end Keystache
